import Mathlib

/-!
Verification of the NodeASM post-management backend.

The definitions below are a shallow embedding of the JavaScript sources:
  - src/controllers/postController.js  (list, detail, create, update, delete, CSV export, cache keys)
  - src/controllers/userController.js  (profile, user listing, profile update, status update)
  - src/services/emailService.js       (sendBulkEmail batching)
  - src/unnamed/part_001               (post:created notification listener)
  - src/models/Post.js                 (schema validation: required fields, maxlength, enum)

Document ids are modelled as strings (the code compares them via toString()).
Request parameters coming from req.query / req.body are modelled as
Option String, with JavaScript truthiness made explicit: an absent value is
none and the empty string is falsy.  Mongo documents are lists; stores are
passed and returned explicitly.  HTTP outcomes are inductive result types
together with a status-code map.
-/

namespace NodeASM

/-- JavaScript truthiness of a string-valued request parameter:
undefined and the empty string are falsy. -/
def truthy : Option String → Bool
  | none => false
  | some s => s ≠ ""

/-- JavaScript `a || d` for a string-valued parameter: the default is taken
when the value is absent or falsy (empty). -/
def jsOr (o : Option String) (d : String) : String :=
  match o with
  | some s => if s = "" then d else s
  | none => d

/-- A stored user document (src/models, fields used by the controllers).
`email` and `fullName` are optional; `none` models an absent (or null) field. -/
structure User where
  _id : String
  username : String
  password : String
  role : String
  email : Option String
  fullName : Option String
  isActive : Bool
  createdAt : Nat
deriving Repr, DecidableEq

/-- A stored post document (src/models/Post.js).  `createdAt` is an abstract
numeric timestamp; `author` holds the id of the authoring user. -/
structure Post where
  _id : String
  title : String
  content : String
  author : String
  category : String
  thumbnail : Option String
  createdAt : Nat
deriving Repr, DecidableEq

/-- Lookup `Model.findById` over the post store. -/
def findPostById (db : List Post) (id : String) : Option Post :=
  db.find? (fun p => p._id = id)

/-- Lookup `Model.findById` over the user store. -/
def findUserById (db : List User) (id : String) : Option User :=
  db.find? (fun u => u._id = id)

/-- Whitespace trimming at both ends, as the Mongoose `trim: true` setter
applies to string fields (an executable model of `String.trim`). -/
def jsTrim (s : String) : String :=
  ⟨((s.data.dropWhile Char.isWhitespace).reverse.dropWhile Char.isWhitespace).reverse⟩

/-- Case-insensitive substring test, modelling the `$regex` with option `i`
the controllers build from a search parameter. -/
def seqContains (needle : List Char) : List Char → Bool
  | [] => needle.isEmpty
  | a :: t => needle.isPrefixOf (a :: t) || seqContains needle t

/-- Case-insensitive containment on strings. -/
def containsCI (hay sub : String) : Bool :=
  seqContains sub.toLower.data hay.toLower.data

/-- The category enumeration of src/models/Post.js (lines 20-25). -/
def validCategories : List String :=
  ["tech", "lifestyle", "business", "education", "health", "entertainment", "other"]

/-! ## CSV export (postController.exportPostsToCSV, lines 403-544) -/

/-- The Mongo query object built by `exportPostsToCSV`:
`author`, `category`, an `$or` regex block over title/content built from
`search`, and an inclusive `createdAt` range. -/
structure ExportQuery where
  author : Option String
  category : Option String
  search : Option String
  createdGte : Option Nat
  createdLte : Option Nat
deriving Repr, DecidableEq

/-- Query construction of `exportPostsToCSV` (lines 413-446), statement by
statement: non-admin callers get `query.author = req.user._id` first; the
category / search filters are added when truthy; the author parameter
overrides `query.author` only for admin callers; date bounds are copied. -/
def buildExportQuery (role callerId : String) (category search author : Option String)
    (startDate endDate : Option Nat) : ExportQuery :=
  let q : ExportQuery := ⟨none, none, none, none, none⟩
  let q := if role ≠ "admin" then { q with author := some callerId } else q
  let q := if truthy category ∧ jsOr category "" ≠ "all" then { q with category := category } else q
  let q := if truthy search then { q with search := search } else q
  let q := if truthy author ∧ role = "admin" then { q with author := author } else q
  { q with createdGte := startDate, createdLte := endDate }

/-- Whether a stored post matches an export query (Mongo `find` semantics for
the operators the query uses). -/
def matchesExport (q : ExportQuery) (p : Post) : Bool :=
  (match q.author with | some a => p.author = a | none => true) &&
  (match q.category with | some c => p.category = c | none => true) &&
  (match q.search with | some s => containsCI p.title s || containsCI p.content s | none => true) &&
  (match q.createdGte with | some d => decide (d ≤ p.createdAt) | none => true) &&
  (match q.createdLte with | some d => decide (p.createdAt ≤ d) | none => true)

/-- The set of posts selected for export (line 449); the createdAt-descending
sort does not change the selected set and is omitted. -/
def exportSelectedPosts (db : List Post) (q : ExportQuery) : List Post :=
  db.filter (matchesExport q)

/-! ## Post mutation (postController.updatePost lines 249-331, deletePost lines 334-400) -/

/-- Outcome of an update or delete request on a post; serverError is the
catch-block answer when the update validators reject the patch. -/
inductive PostMutationResult where
  | notFound
  | forbidden
  | ok (p : Post)
  | serverError
deriving Repr, DecidableEq

/-- HTTP status chosen by updatePost / deletePost for each outcome. -/
def postMutationStatus : PostMutationResult → Nat
  | .notFound => 404
  | .forbidden => 403
  | .ok _ => 200
  | .serverError => 500

/-- The partial-update body of a PUT request: each field is present or absent. -/
structure PostPatch where
  title : Option String
  content : Option String
  category : Option String
deriving Repr, DecidableEq

/-- The update document of `Post.findByIdAndUpdate` (lines 286-294):
`...(title && { title })` spreads a field only when the value is truthy, and
the schema trim setters apply to the updated string paths during casting;
`thumbnail` is always written, holding the new upload path when a file was
sent and the prior stored path otherwise (lines 272-283). -/
def applyPostPatch (post : Post) (patch : PostPatch) (file : Option String) : Post :=
  let thumbnailPath : Option String :=
    match file with
    | some filename => some ("/uploads/" ++ filename)
    | none => post.thumbnail
  { post with
    title := match patch.title with
      | some t => if t ≠ "" then jsTrim t else post.title
      | none => post.title
    content := match patch.content with
      | some c => if c ≠ "" then jsTrim c else post.content
      | none => post.content
    category := match patch.category with
      | some c => if c ≠ "" then jsTrim c else post.category
      | none => post.category
    thumbnail := thumbnailPath }

/-- The update validators run by `findByIdAndUpdate` with runValidators:
true (line 294): each schema path present in the update document is checked
after casting — title required and at most 200 characters, content
required, category required and in the enumeration; thumbnail has no
validators.  A path absent from the update document is not validated. -/
def postUpdateValid (patch : PostPatch) : Bool :=
  (match patch.title with
   | some t => if t ≠ "" then jsTrim t ≠ "" && decide ((jsTrim t).length ≤ 200) else true
   | none => true) &&
  (match patch.content with
   | some c => if c ≠ "" then jsTrim c ≠ "" else true
   | none => true) &&
  (match patch.category with
   | some c =>
     if c ≠ "" then jsTrim c ≠ "" && decide (jsTrim c ∈ validCategories) else true
   | none => true)

/-- Controller `updatePost` (lines 249-331): find the post, 404 when missing, 403 when
the caller is not the author (the ownership test `post.author.toString() !==
userId.toString()` precedes every write, including the thumbnail-file
replacement); otherwise `findByIdAndUpdate` with runValidators: true either
throws on a patch the schema rejects — the catch block answers 500 and the
stored post is untouched — or applies the patch document and writes it
back. -/
def updatePost (db : List Post) (id userId : String) (patch : PostPatch)
    (file : Option String) : PostMutationResult × List Post :=
  match findPostById db id with
  | none => (.notFound, db)
  | some post =>
    if post.author ≠ userId then (.forbidden, db)
    else if postUpdateValid patch then
      let updated := applyPostPatch post patch file
      (.ok updated, db.map (fun q => if q._id = id then applyPostPatch q patch file else q))
    else (.serverError, db)

/-- Controller `deletePost` (lines 334-400): find the post, 404 when missing, 403 when
the caller is not the author (checked before the thumbnail file removal and
the `findByIdAndDelete`), otherwise remove the document. -/
def deletePost (db : List Post) (id userId : String) : PostMutationResult × List Post :=
  match findPostById db id with
  | none => (.notFound, db)
  | some post =>
    if post.author ≠ userId then (.forbidden, db)
    else (.ok post, db.filter (fun q => q._id ≠ id))

/-! ## Post creation (postController.createPost lines 178-246, Post.js schema) -/

/-- Outcome of a create request. -/
inductive CreateResult where
  | badRequest
  | created (p : Post)
  | serverError
deriving Repr, DecidableEq

/-- HTTP status chosen by createPost for each outcome: the explicit field
check returns 400; a rejection thrown by `newPost.save()` (schema
validation) lands in the generic catch block, which returns 500. -/
def createStatus : CreateResult → Nat
  | .badRequest => 400
  | .created _ => 201
  | .serverError => 500

/-- Schema validation run by `newPost.save()` on the (already trimmed)
document: title required and at most 200 characters, content required,
category required and in the enumeration (src/models/Post.js). -/
def postSaveValid (p : Post) : Bool :=
  p.title ≠ "" && decide (p.title.length ≤ 200) &&
  p.content ≠ "" &&
  p.category ≠ "" && decide (p.category ∈ validCategories)

/-- Controller `createPost` (lines 178-246): the controller returns 400 when title,
content or category is falsy (absent or empty); otherwise it builds the
document (schema setters trim the string fields) and saves it.  A document
the schema rejects makes `save()` throw, which the catch block turns into a
500 response with nothing persisted. -/
def createPost (db : List Post) (userId : String) (title content category : Option String)
    (file : Option String) (newId : String) (now : Nat) : CreateResult × List Post :=
  if ¬ truthy title ∨ ¬ truthy content ∨ ¬ truthy category then (.badRequest, db)
  else
    let thumbnailPath : Option String := file.map (fun f => "/uploads/" ++ f)
    let candidate : Post :=
      { _id := newId
        title := jsTrim (jsOr title "")
        content := jsTrim (jsOr content "")
        author := userId
        category := jsTrim (jsOr category "")
        thumbnail := thumbnailPath
        createdAt := now }
    if postSaveValid candidate then (.created candidate, db ++ [candidate])
    else (.serverError, db)

/-! ## Serialized documents (field-level view of the JSON responses) -/

/-- A JSON scalar appearing in a serialized document field. -/
inductive JVal where
  | s (v : String)
  | n (v : Nat)
  | b (v : Bool)
  | null
deriving Repr, DecidableEq

/-- A serialized document: an ordered list of field name / value pairs. -/
abbrev JObj := List (String × JVal)

/-- Full serialization of a stored user document, every schema field
included (this is what the store would return without a projection). -/
def userDocFields (u : User) : JObj :=
  [("_id", .s u._id),
   ("username", .s u.username),
   ("password", .s u.password),
   ("role", .s u.role),
   ("email", match u.email with | some e => .s e | none => .null),
   ("fullName", match u.fullName with | some f => .s f | none => .null),
   ("isActive", .b u.isActive),
   ("createdAt", .n u.createdAt)]

/-- The Mongoose projection `.select(-password)`: every field except the
excluded one. -/
def selectExclude (field : String) (o : JObj) : JObj :=
  o.filter (fun kv => kv.1 ≠ field)

/-- The user object every user endpoint serializes:
`User.findById(...).select(-password)` and friends. -/
def userWithoutPassword (u : User) : JObj :=
  selectExclude "password" (userDocFields u)

/-- The author object produced by `.populate(author, username)`: Mongoose
returns the referenced document restricted to `_id` and the listed field. -/
def populateAuthorUsername (udb : List User) (authorId : String) : JObj :=
  match findUserById udb authorId with
  | some u => [("_id", .s u._id), ("username", .s u.username)]
  | none => []

/-! ## User endpoints (userController.js) -/

/-- Outcome of a user-returning endpoint. -/
inductive UserFetchResult where
  | notFound
  | ok (data : JObj)
deriving Repr, DecidableEq

/-- Controller `getProfile` (lines 4-29): the caller id is looked up with the
password-excluding projection. -/
def getProfile (db : List User) (callerId : String) : UserFetchResult :=
  match findUserById db callerId with
  | none => .notFound
  | some u => .ok (userWithoutPassword u)

/-- Controller `getUserById` (lines 32-59): same projection, admin-gated route. -/
def getUserById (db : List User) (id : String) : UserFetchResult :=
  match findUserById db id with
  | none => .notFound
  | some u => .ok (userWithoutPassword u)

/-- The filter of `getAllUsers` (lines 77-93): role when it is one of the two
known roles, a case-insensitive search over username / fullName / email, and
an isActive equality when the parameter is present (`isActive === true`
compares against the string `true`). -/
def userMatchesListQuery (role search : Option String) (isActive : Option String)
    (u : User) : Bool :=
  (match role with
   | some r => if r ≠ "" ∧ (r = "admin" ∨ r = "user") then u.role = r else true
   | none => true) &&
  (match search with
   | some s =>
     if s ≠ "" then
       containsCI u.username s || containsCI (jsOr u.fullName "") s || containsCI (jsOr u.email "") s
     else true
   | none => true) &&
  (match isActive with
   | some v => u.isActive = (v = "true")
   | none => true)

/-- The page of serialized users returned by `getAllUsers` (lines 96-104):
matching documents, password projected away, then skip / limit.  The
createdAt-descending sort permutes the page but each emitted object is the
same projection; it is modelled by a stable sort. -/
def getAllUsersData (db : List User) (role search isActive : Option String)
    (pageNum limitNum : Nat) : List JObj :=
  ((((db.filter (userMatchesListQuery role search isActive)).mergeSort
        (fun a b => b.createdAt ≤ a.createdAt)).drop
      ((pageNum - 1) * limitNum)).take limitNum).map userWithoutPassword

/-- The update document of `updateProfile` (lines 141-148):
`{...(fullName && { fullName }), ...(email && { email })}` — a field is
written only when the supplied value is truthy. -/
def applyProfilePatch (u : User) (fullName email : Option String) : User :=
  { u with
    fullName := if truthy fullName then fullName else u.fullName
    email := if truthy email then email else u.email }

/-- Controller `updateProfile` (lines 135-171): lookup, patch application,
write-back, password projected away from the returned user. -/
def updateProfile (db : List User) (callerId : String) (fullName email : Option String) :
    UserFetchResult × List User :=
  match findUserById db callerId with
  | none => (.notFound, db)
  | some u =>
    (.ok (userWithoutPassword (applyProfilePatch u fullName email)),
     db.map (fun w => if w._id = callerId then applyProfilePatch w fullName email else w))

/-- Outcome of the status-update endpoint. -/
inductive StatusUpdateResult where
  | validationError
  | notFound
  | ok (data : JObj)
deriving Repr, DecidableEq

/-- HTTP status chosen by updateUserStatus for each outcome. -/
def statusUpdateStatus : StatusUpdateResult → Nat
  | .validationError => 400
  | .notFound => 404
  | .ok _ => 200

/-- Controller `updateUserStatus` (lines 174-214): the self-deactivation guard
`id === req.user._id.toString() && isActive === false` runs first and
returns 400 before any write; otherwise `findByIdAndUpdate` sets `isActive`
and the updated user is returned with the password projected away. -/
def updateUserStatus (db : List User) (callerId targetId : String) (isActive : Bool) :
    StatusUpdateResult × List User :=
  if targetId = callerId ∧ isActive = false then (.validationError, db)
  else
    match findUserById db targetId with
    | none => (.notFound, db)
    | some u =>
      (.ok (userWithoutPassword { u with isActive := isActive }),
       db.map (fun w => if w._id = targetId then { w with isActive := isActive } else w))

/-! ## Post listing (postController.getAllPosts lines 18-117) -/

/-- The Mongo query object of `getAllPosts` (lines 34-43): a category
equality when the parameter is truthy and not the literal `all`, and an
`$or` regex block over title / content when a search text is given. -/
structure ListQuery where
  category : Option String
  search : Option String
deriving Repr, DecidableEq

/-- Query construction of `getAllPosts` (lines 34-43). -/
def buildListQuery (category search : Option String) : ListQuery :=
  let q : ListQuery := ⟨none, none⟩
  let q := if truthy category ∧ jsOr category "" ≠ "all" then { q with category := category } else q
  if truthy search then { q with search := search } else q

/-- Whether a stored post matches a list query. -/
def matchesList (q : ListQuery) (p : Post) : Bool :=
  (match q.category with | some c => p.category = c | none => true) &&
  (match q.search with | some s => containsCI p.title s || containsCI p.content s | none => true)

/-- Count `Post.countDocuments(query)` (line 75). -/
def countMatching (db : List Post) (q : ListQuery) : Nat :=
  (db.filter (matchesList q)).length

/-- The pagination object of the list response (lines 78-92).  `totalPages =
Math.ceil(totalPosts / limitNum)` on positive integers is the ceiling
division `(totalPosts + limitNum - 1) / limitNum`; the field holding the
match count is named `totalPosts` in the object literal (line 86). -/
def paginationJson (pageNum limitNum totalPosts : Nat) : JObj :=
  let totalPages := (totalPosts + limitNum - 1) / limitNum
  [("currentPage", .n pageNum),
   ("totalPages", .n totalPages),
   ("totalPosts", .n totalPosts),
   ("hasNext", .b (decide (pageNum < totalPages))),
   ("hasPrev", .b (decide (1 < pageNum))),
   ("limit", .n limitNum)]

/-- The pagination metadata a store-served list response carries. -/
def getAllPostsPagination (db : List Post) (pageNum limitNum : Nat)
    (category search : Option String) : JObj :=
  paginationJson pageNum limitNum (countMatching db (buildListQuery category search))

/-- A serialized post of the list page: the scalar fields of the document
together with the author object produced by `.populate(author, username)`. -/
structure PostView where
  fields : JObj
  author : JObj
deriving Repr, DecidableEq

/-- Scalar fields of a serialized post document. -/
def postDocFields (p : Post) : JObj :=
  [("_id", .s p._id),
   ("title", .s p.title),
   ("content", .s p.content),
   ("category", .s p.category),
   ("thumbnail", match p.thumbnail with | some t => .s t | none => .null),
   ("createdAt", .n p.createdAt)]

/-- Serialization of one post with its populated author. -/
def postView (udb : List User) (p : Post) : PostView :=
  ⟨postDocFields p, populateAuthorUsername udb p.author⟩

/-- The sort comparator `sortObj[sortBy] = order === desc ? -1 : 1`
(lines 62-65), defined on the schema fields a sort can name; a sort on an
unknown field leaves the order unconstrained. -/
def postSortLe (sortBy order : String) (a b : Post) : Bool :=
  let asc := fun (x y : Post) =>
    match sortBy with
    | "createdAt" => decide (x.createdAt ≤ y.createdAt)
    | "title" => decide (x.title ≤ y.title)
    | "content" => decide (x.content ≤ y.content)
    | "category" => decide (x.category ≤ y.category)
    | "_id" => decide (x._id ≤ y._id)
    | _ => true
  if order = "desc" then asc b a else asc a b

/-- The store-served list page (lines 68-92): filter, sort, skip, limit,
populate, together with the pagination metadata. -/
structure ListData where
  posts : List PostView
  pagination : JObj
deriving Repr, DecidableEq

/-- The data object `getAllPosts` computes on a cache miss. -/
def freshListData (db : List Post) (udb : List User) (pageNum limitNum : Nat)
    (sortBy order : String) (category search : Option String) : ListData :=
  let q := buildListQuery category search
  let pageItems :=
    ((((db.filter (matchesList q)).mergeSort (postSortLe sortBy order)).drop
        ((pageNum - 1) * limitNum)).take limitNum).map (postView udb)
  ⟨pageItems, getAllPostsPagination db pageNum limitNum category search⟩

/-! ## Cache layer (postController lines 7-15, 45-60, 94-101, 220-230, 304-315, 374-385) -/

/-- The cache: redis keys paired with their stored JSON payloads. -/
abbrev Cache := List (String × String)

/-- Read `redisClient.get` on a key. -/
def cacheGet (cache : Cache) (k : String) : Option String :=
  (cache.find? (fun e => e.1 = k)).map (fun e => e.2)

/-- Key builder `getCacheKey` (lines 13-15): the key is built from page, limit, sortBy,
category-or-all and search-or-none; the sort direction is not part of it. -/
def getCacheKey (page limit sortBy : String) (category search : Option String) : String :=
  let cat := jsOr category "all"
  let sea := jsOr search "none"
  s!"posts:{page}:{limit}:{sortBy}:{cat}:{sea}"

/-- A list-response: served from the cache verbatim, or computed from the
store.  The numeric parameters of the fresh path are the controller
`parseInt` results, modelled on numeric strings by `String.toNat?`. -/
inductive ListResponse where
  | cached (payload : String)
  | fresh (data : ListData)
deriving Repr, DecidableEq

/-- Controller `getAllPosts` with the cache check of lines 45-60: the key is computed
from the raw request parameters (the `order` parameter is not passed to
`getCacheKey`); a hit short-circuits to the stored payload. -/
def getAllPostsCached (cache : Cache) (db : List Post) (udb : List User)
    (page limit sortBy order : String) (category search : Option String) : ListResponse :=
  match cacheGet cache (getCacheKey page limit sortBy category search) with
  | some payload => .cached payload
  | none =>
    .fresh (freshListData db udb ((page.toNat?).getD 0) ((limit.toNat?).getD 0)
      sortBy order category search)

/-- Whether a key matches the redis pattern the invalidation blocks pass to
`redisClient.keys` — every key beginning with the list-key mark `posts:`. -/
def matchesListPattern (k : String) : Bool :=
  "posts:".data.isPrefixOf k.data

/-- Lookup `redisClient.keys` on the list pattern. -/
def redisKeysListPattern (cache : Cache) : List String :=
  (cache.map Prod.fst).filter matchesListPattern

/-- Deletion `redisClient.del(keys)`: every entry whose key is listed is removed. -/
def redisDel (cache : Cache) (ks : List String) : Cache :=
  cache.filter (fun e => decide (e.1 ∉ ks))

/-- The cache-clear block of `createPost` (lines 220-230): delete the keys
matching the list pattern when there are any. -/
def createCacheClear (cache : Cache) : Cache :=
  let keys := redisKeysListPattern cache
  if keys.length > 0 then redisDel cache keys else cache

/-- The cache-clear block shared verbatim by `updatePost` (lines 304-315)
and `deletePost` (lines 374-385): the keys matching the list pattern plus
the pushed detail key of the affected post. -/
def mutateCacheClear (cache : Cache) (id : String) : Cache :=
  let keys := redisKeysListPattern cache ++ ["post:" ++ id]
  if keys.length > 0 then redisDel cache keys else cache

/-! ## Notifications (src/unnamed/part_001, src/services/emailService.js) -/

/-- The recipient query of the post:created listener (part_001, lines
30-34): `{ isActive: true, email: { $exists: true, $ne: null, $ne: "" },
_id: { $ne: author._id } }`.  The object literal repeats the key `$ne`, so
the later `$ne: ""` is the one the store receives; with absent and null
emails both modelled as `none`, the effective predicate is: active, email
present and non-empty, and not the authoring user. -/
def notifRecipients (udb : List User) (authorId : String) : List User :=
  udb.filter (fun u =>
    u.isActive &&
    (match u.email with | some e => decide (e ≠ "") | none => false) &&
    decide (u._id ≠ authorId))

/-- The email list handed to `sendBulkEmail` (part_001, line 37). -/
def notifEmailList (udb : List User) (authorId : String) : List String :=
  (notifRecipients udb authorId).map (fun u => jsOr u.email "")

/-- The batch slicing of `sendBulkEmail` (emailService.js, lines 44-60):
`for (i = 0; i < recipients.length; i += batchSize)` with
`batch = recipients.slice(i, i + batchSize)` and `batchSize = 5`. -/
def chunkList : List String → List (List String)
  | [] => []
  | a :: rest => (a :: rest).take 5 :: chunkList ((a :: rest).drop 5)
termination_by l => l.length
decreasing_by simp; omega

/-- Per-batch outcomes: each address in a batch gets one `sendEmail` call,
whose success is modelled by the outcome oracle. -/
structure BulkEmailResult where
  results : List Bool
  successCount : Nat
  failCount : Nat
deriving Repr, DecidableEq

/-- Service `sendBulkEmail` (emailService.js, lines 41-67): the per-batch result
arrays are pushed onto `results` in batch order; `successCount` and
`failCount` are the two filters over the flattened results. -/
def sendBulkEmail (outcome : String → Bool) (recipients : List String) : BulkEmailResult :=
  let results := ((chunkList recipients).map (fun batch => batch.map outcome)).flatten
  { results := results
    successCount := (results.filter (fun r => r)).length
    failCount := (results.filter (fun r => !r)).length }

/-! ## Authentication responses (routes/auth.js, authController.js — not in the sources) -/

/-- Modelled from the spec: the login endpoint of authController.js is not
among the sources; per the spec it verifies the password hash and issues a
bearer token valid 24 hours, and password hashes are never serialized, so
its success payload is the issued token. -/
def loginResponseFields (token : String) : JObj :=
  [("token", .s token)]

/-- Modelled from the spec: the register endpoint of authController.js is
not among the sources; per the spec it creates a user with the default role
and never serializes the password hash, so its payload is the created user
behind the password-excluding projection. -/
def registerResponseFields (u : User) : JObj :=
  userWithoutPassword u

/-- The fixed CSV column ids of `exportPostsToCSV` (lines 473-487). -/
def csvColumnIds : List String :=
  ["id", "title", "content", "category", "authorUsername", "authorFullName",
   "authorEmail", "thumbnail", "createdAt", "updatedAt"]

/-- The cache key `getAllPosts` computes for a full request-parameter tuple
(line 46): `order` is among the request parameters but is not passed to
`getCacheKey`. -/
def requestCacheKey (page limit sortBy order : String) (category search : Option String) : String :=
  getCacheKey page limit sortBy category search

/-! ## Concrete fixtures used by the witness theorems -/

/-- A sample regular user. -/
def sampleUser : User :=
  { _id := "u1", username := "alice", password := "h4sh", role := "user",
    email := some "alice@example.com", fullName := none, isActive := true, createdAt := 0 }

/-- A second sample user. -/
def sampleUser2 : User :=
  { _id := "u2", username := "bob", password := "h4sh2", role := "user",
    email := some "bob@example.com", fullName := some "Bob B", isActive := true, createdAt := 1 }

/-- A sample post authored by `sampleUser`. -/
def samplePost : Post :=
  { _id := "p1", title := "Hello World", content := "Body text", author := "u1",
    category := "tech", thumbnail := none, createdAt := 10 }

/-! # Theorems -/

/-- The author slot of the export query: the admin-gated author parameter
wins when it applies, otherwise the forced caller id for non-admins. -/
theorem buildExportQuery_author (role callerId : String) (category search author : Option String)
    (startDate endDate : Option Nat) :
    (buildExportQuery role callerId category search author startDate endDate).author =
      if truthy author = true ∧ role = "admin" then author
      else if role ≠ "admin" then some callerId else none := by
  simp only [buildExportQuery]
  split_ifs <;> rfl

/-- C1: for a non-admin caller the export query forces author to the caller
id — any requested author filter is ignored — so every exported post has the
caller as author; for an admin caller a supplied (truthy) author filter is
applied instead. -/
theorem c1_export_author_scoping (role callerId : String) (category search author : Option String)
    (startDate endDate : Option Nat) (db : List Post) :
    (role ≠ "admin" →
      (buildExportQuery role callerId category search author startDate endDate).author =
        some callerId ∧
      ∀ p ∈ exportSelectedPosts db
          (buildExportQuery role callerId category search author startDate endDate),
        p.author = callerId) ∧
    (role = "admin" → ∀ a, author = some a → a ≠ "" →
      (buildExportQuery role callerId category search author startDate endDate).author = some a) := by
  constructor
  · intro hrole
    have hauth : (buildExportQuery role callerId category search author startDate endDate).author =
        some callerId := by
      rw [buildExportQuery_author]
      rw [if_neg (fun h => hrole h.2), if_pos hrole]
    refine ⟨hauth, ?_⟩
    intro p hp
    have hm : matchesExport (buildExportQuery role callerId category search author startDate endDate)
        p = true := (List.mem_filter.mp hp).2
    simp only [matchesExport, hauth, Bool.and_eq_true, decide_eq_true_eq] at hm
    exact hm.1.1.1.1
  · intro hrole a ha hne
    rw [buildExportQuery_author, if_pos ⟨by simp [ha, truthy, hne], hrole⟩, ha]

/-- C1 witness: a non-admin caller `u1` supplying the author override `u2`
still gets a query scoped to author `u1`. -/
theorem c1_witness :
    (buildExportQuery "user" "u1" none none (some "u2") none none).author = some "u1" :=
  ((c1_export_author_scoping "user" "u1" none none (some "u2") none none []).1
    (by decide)).1

/-- C2: an update or delete request on an existing post by a caller who is
not the author returns Forbidden (403) and leaves the store — hence the post
and all of its fields, the thumbnail included — unchanged. -/
theorem c2_nonauthor_forbidden (db : List Post) (id userId : String) (patch : PostPatch)
    (file : Option String) (p : Post)
    (hfind : findPostById db id = some p) (hne : p.author ≠ userId) :
    updatePost db id userId patch file = (.forbidden, db) ∧
    deletePost db id userId = (.forbidden, db) ∧
    postMutationStatus .forbidden = 403 := by
  refine ⟨?_, ?_, rfl⟩
  · unfold updatePost
    rw [hfind]
    simp [hne]
  · unfold deletePost
    rw [hfind]
    simp [hne]

/-- C2 witness: caller `u2` attempting to update or delete the post of `u1`
is rejected with the store untouched. -/
theorem c2_witness :
    updatePost [samplePost] "p1" "u2" ⟨some "X", none, none⟩ none =
      (.forbidden, [samplePost]) ∧
    deletePost [samplePost] "p1" "u2" = (.forbidden, [samplePost]) :=
  let h := c2_nonauthor_forbidden [samplePost] "p1" "u2" ⟨some "X", none, none⟩ none
    samplePost (by decide) (by decide)
  ⟨h.1, h.2.1⟩

/-- No field named password survives the password-excluding projection. -/
theorem password_not_mem_userWithoutPassword (u : User) (v : JVal) :
    ("password", v) ∉ userWithoutPassword u := by
  simp [userWithoutPassword, selectExclude, List.mem_filter]

/-- C3: no response of the modelled API surface carries a stored password:
every user-returning endpoint serializes the password-excluding projection,
post-returning endpoints populate the author with only its id and username,
the CSV columns do not include a password, and the (spec-modelled) login and
register responses carry the token, respectively the projected user. -/
theorem c3_password_never_serialized :
    (∀ (db : List User) (cid : String) (o : JObj), getProfile db cid = .ok o →
      ∀ v, ("password", v) ∉ o) ∧
    (∀ (db : List User) (id : String) (o : JObj), getUserById db id = .ok o →
      ∀ v, ("password", v) ∉ o) ∧
    (∀ (db : List User) (role search isActive : Option String) (pageNum limitNum : Nat)
      (o : JObj), o ∈ getAllUsersData db role search isActive pageNum limitNum →
      ∀ v, ("password", v) ∉ o) ∧
    (∀ (db : List User) (cid : String) (fullName email : Option String) (o : JObj)
      (db2 : List User), updateProfile db cid fullName email = (.ok o, db2) →
      ∀ v, ("password", v) ∉ o) ∧
    (∀ (db : List User) (callerId targetId : String) (b : Bool) (o : JObj) (db2 : List User),
      updateUserStatus db callerId targetId b = (.ok o, db2) →
      ∀ v, ("password", v) ∉ o) ∧
    (∀ (udb : List User) (p : Post) (v : JVal),
      ("password", v) ∉ (postView udb p).fields ∧ ("password", v) ∉ (postView udb p).author) ∧
    (∀ (udb : List User) (a : String),
      (populateAuthorUsername udb a).map Prod.fst = [] ∨
      (populateAuthorUsername udb a).map Prod.fst = ["_id", "username"]) ∧
    (∀ (token : String) (v : JVal), ("password", v) ∉ loginResponseFields token) ∧
    (∀ (u : User) (v : JVal), ("password", v) ∉ registerResponseFields u) ∧
    ("password" ∉ csvColumnIds) := by
  refine ⟨?_, ?_, ?_, ?_, ?_, ?_, ?_, ?_, ?_, by decide⟩
  · intro db cid o h v
    cases hf : findUserById db cid with
    | none => simp [getProfile, hf] at h
    | some u =>
      simp [getProfile, hf] at h
      subst h
      exact password_not_mem_userWithoutPassword u v
  · intro db id o h v
    cases hf : findUserById db id with
    | none => simp [getUserById, hf] at h
    | some u =>
      simp [getUserById, hf] at h
      subst h
      exact password_not_mem_userWithoutPassword u v
  · intro db role search isActive pageNum limitNum o ho v
    obtain ⟨u, _, rfl⟩ := List.mem_map.mp ho
    exact password_not_mem_userWithoutPassword u v
  · intro db cid fullName email o db2 h v
    cases hf : findUserById db cid with
    | none => simp [updateProfile, hf] at h
    | some u =>
      simp [updateProfile, hf] at h
      rw [← h.1]
      exact password_not_mem_userWithoutPassword _ v
  · intro db callerId targetId b o db2 h v
    by_cases hg : targetId = callerId ∧ b = false
    · simp [updateUserStatus, hg] at h
    · cases hf : findUserById db targetId with
      | none => simp [updateUserStatus, hg, hf] at h
      | some u =>
        simp [updateUserStatus, hg, hf] at h
        rw [← h.1]
        exact password_not_mem_userWithoutPassword _ v
  · intro udb p v
    constructor
    · simp [postView, postDocFields]
    · simp only [postView]
      cases hf : findUserById udb p.author <;> simp [populateAuthorUsername, hf]
  · intro udb a
    cases hf : findUserById udb a <;> simp [populateAuthorUsername, hf]
  · intro token v
    simp [loginResponseFields]
  · intro u v
    exact password_not_mem_userWithoutPassword u v

/-- C3 witness: the profile response for the sample user carries no
password field. -/
theorem c3_witness : ("password", JVal.s "h4sh") ∉ userWithoutPassword sampleUser :=
  c3_password_never_serialized.1 [sampleUser] "u1" (userWithoutPassword sampleUser)
    (by rfl) (JVal.s "h4sh")

/-- Looking up the target after the isActive write-back returns the target
with the new flag. -/
theorem findUserById_after_setActive (db : List User) (targetId : String) (v : Bool) (u : User)
    (h : findUserById db targetId = some u) :
    findUserById
      (db.map (fun w => if w._id = targetId then { w with isActive := v } else w)) targetId =
      some { u with isActive := v } := by
  unfold findUserById at h ⊢
  induction db with
  | nil => simp at h
  | cons a t ih =>
    by_cases ha : a._id = targetId
    · rw [List.find?_cons_of_pos _ (by simpa using ha)] at h
      injection h with h
      subst h
      have hmap : (a :: t).map (fun w => if w._id = targetId then { w with isActive := v } else w)
          = { a with isActive := v } ::
            t.map (fun w => if w._id = targetId then { w with isActive := v } else w) := by
        simp [ha]
      rw [hmap, List.find?_cons_of_pos _ (by simpa using ha)]
    · rw [List.find?_cons_of_neg _ (by simpa using ha)] at h
      have hmap : (a :: t).map (fun w => if w._id = targetId then { w with isActive := v } else w)
          = a :: t.map (fun w => if w._id = targetId then { w with isActive := v } else w) := by
        simp [ha]
      rw [hmap, List.find?_cons_of_neg _ (by simpa using ha)]
      exact ih h

/-- C4: a SetActive call on the caller itself with a requested value of
false fails with ValidationError (400) and leaves the store — in particular
the stored isActive of the caller — unchanged; in every other case on an
existing target, the target isActive is set to the requested value and the
updated user is returned. -/
theorem c4_set_active (db : List User) (callerId targetId : String) (isActive : Bool) :
    (targetId = callerId → isActive = false →
      updateUserStatus db callerId targetId isActive = (.validationError, db) ∧
      statusUpdateStatus .validationError = 400) ∧
    (¬ (targetId = callerId ∧ isActive = false) →
      ∀ u, findUserById db targetId = some u →
        (updateUserStatus db callerId targetId isActive).1 =
          .ok (userWithoutPassword { u with isActive := isActive }) ∧
        findUserById (updateUserStatus db callerId targetId isActive).2 targetId =
          some { u with isActive := isActive }) := by
  constructor
  · intro ht hv
    refine ⟨?_, rfl⟩
    simp [updateUserStatus, ht, hv]
  · intro hguard u hu
    rw [updateUserStatus.eq_def]
    rw [if_neg hguard, hu]
    exact ⟨rfl, findUserById_after_setActive db targetId isActive u hu⟩

/-- C4 witness: the sample user deactivating itself gets the validation
error with the store unchanged, and toggling another user applies the
requested value. -/
theorem c4_witness :
    updateUserStatus [sampleUser] "u1" "u1" false = (.validationError, [sampleUser]) ∧
    (updateUserStatus [sampleUser, sampleUser2] "u1" "u2" false).1 =
      .ok (userWithoutPassword { sampleUser2 with isActive := false }) :=
  ⟨((c4_set_active [sampleUser] "u1" "u1" false).1 rfl rfl).1,
   ((c4_set_active [sampleUser, sampleUser2] "u1" "u2" false).2 (by decide) sampleUser2
      (by decide)).1⟩

/-- C5 counterexample: a create request with all three fields present but a
category outside the enumeration is not answered with 400 — the schema
rejection surfaces from the catch block as a 500 server error (no post is
persisted either way). -/
theorem c5_counterexample :
    createPost [] "u1" (some "My title") (some "Body") (some "sports") none "p9" 0 =
      (.serverError, []) ∧
    createStatus .serverError = 500 ∧ (500 : Nat) ≠ 400 := by
  refine ⟨by decide, rfl, by decide⟩

/-- C5 (amended): a create request missing title, content or category fails
with 400 and persists nothing; a request whose category is outside the
enumerated set makes the schema reject the save, which the controller
answers with 500 — not 400 — and persists nothing. -/
theorem c5_create_validation (db : List Post) (userId : String)
    (title content category file : Option String) (newId : String) (now : Nat) :
    (¬ truthy title = true ∨ ¬ truthy content = true ∨ ¬ truthy category = true →
      createPost db userId title content category file newId now = (.badRequest, db) ∧
      createStatus .badRequest = 400) ∧
    (∀ c, category = some c → c ≠ "" →
      truthy title = true → truthy content = true →
      jsTrim c ∉ validCategories →
      createPost db userId title content category file newId now = (.serverError, db) ∧
      createStatus .serverError = 500) := by
  constructor
  · intro hmiss
    refine ⟨?_, rfl⟩
    rw [createPost.eq_def, if_pos]
    simpa using hmiss
  · intro c hc hcne htitle hcontent hcat
    refine ⟨?_, rfl⟩
    have hct : truthy category = true := by rw [hc]; simp [truthy, hcne]
    rw [createPost.eq_def, if_neg (by simp [htitle, hcontent, hct])]
    have hjs : jsOr category "" = c := by simp [jsOr, hc, hcne]
    rw [if_neg]
    simp only [postSaveValid, hjs, Bool.and_eq_true, decide_eq_true_eq]
    intro h
    exact hcat h.2

/-- C5 witness: a missing title gives 400 with nothing persisted, and an
out-of-enumeration category gives 500 with nothing persisted. -/
theorem c5_witness :
    (createPost [samplePost] "u1" none (some "Body") (some "tech") none "p9" 0 =
      (.badRequest, [samplePost])) ∧
    (createPost [samplePost] "u1" (some "T") (some "B") (some "badcat") none "p9" 0 =
      (.serverError, [samplePost])) :=
  ⟨((c5_create_validation [samplePost] "u1" none (some "Body") (some "tech") none "p9" 0).1
      (by decide)).1,
   ((c5_create_validation [samplePost] "u1" (some "T") (some "B") (some "badcat") none "p9" 0).2
      "badcat" rfl (by decide) (by decide) (by decide) (by decide)).1⟩

/-- C6 counterexample: the pagination object has no field named totalCount —
the match count is serialized under the name totalPosts (line 86), so the
field set claimed in the specification does not match the response. -/
theorem c6_counterexample :
    ((getAllPostsPagination [] 1 10 none none).map Prod.fst =
      ["currentPage", "totalPages", "totalPosts", "hasNext", "hasPrev", "limit"]) ∧
    "totalCount" ∉ (getAllPostsPagination [] 1 10 none none).map Prod.fst := by
  refine ⟨by decide, by decide⟩

/-- C6 (amended): for page ≥ 1 and limit ≥ 1 the pagination metadata has
exactly the fields currentPage, totalPages, totalPosts, hasNext, hasPrev and
limit (totalPosts — not totalCount — holds the number of posts matching the
filters), with totalPages the ceiling of totalPosts / limit, hasNext equal
to currentPage < totalPages, and hasPrev equal to currentPage > 1. -/
theorem c6_pagination_fields (db : List Post) (pageNum limitNum : Nat)
    (category search : Option String) (hp : 1 ≤ pageNum) (hl : 1 ≤ limitNum) :
    getAllPostsPagination db pageNum limitNum category search =
      [("currentPage", .n pageNum),
       ("totalPages", .n ((countMatching db (buildListQuery category search) + limitNum - 1) / limitNum)),
       ("totalPosts", .n (countMatching db (buildListQuery category search))),
       ("hasNext", .b (decide (pageNum <
          (countMatching db (buildListQuery category search) + limitNum - 1) / limitNum))),
       ("hasPrev", .b (decide (1 < pageNum))),
       ("limit", .n limitNum)] ∧
    countMatching db (buildListQuery category search) ≤
      ((countMatching db (buildListQuery category search) + limitNum - 1) / limitNum) * limitNum ∧
    (∀ m, countMatching db (buildListQuery category search) ≤ m * limitNum →
      (countMatching db (buildListQuery category search) + limitNum - 1) / limitNum ≤ m) := by
  refine ⟨rfl, ?_, ?_⟩
  · have h1 := Nat.lt_div_mul_add (a := countMatching db (buildListQuery category search)
      + limitNum - 1) hl
    omega
  · intro m hm
    have hm2 : countMatching db (buildListQuery category search) ≤ limitNum * m := by
      rw [Nat.mul_comm]; exact hm
    rw [Nat.div_le_iff_le_mul_add_pred hl]
    omega

/-- C6 witness: the concrete pagination object for one matching post at
page 1 with limit 10. -/
theorem c6_witness :
    getAllPostsPagination [samplePost] 1 10 none none =
      [("currentPage", .n 1), ("totalPages", .n ((1 + 10 - 1) / 10)), ("totalPosts", .n 1),
       ("hasNext", .b (decide ((1 : Nat) < (1 + 10 - 1) / 10))), ("hasPrev", .b (decide ((1 : Nat) < 1))),
       ("limit", .n 10)] ∧
    (1 : Nat) ≤ ((1 + 10 - 1) / 10) * 10 := by
  have h := c6_pagination_fields [samplePost] 1 10 none none (by decide) (by decide)
  have hc : countMatching [samplePost] (buildListQuery none none) = 1 := by decide
  exact ⟨by rw [h.1, hc], by have := h.2.1; rwa [hc] at this⟩

/-- An entry survives a redis DEL exactly when its key is not listed. -/
theorem mem_redisDel (cache : Cache) (ks : List String) (e : String × String) :
    e ∈ redisDel cache ks ↔ e ∈ cache ∧ e.1 ∉ ks := by
  simp [redisDel]

/-- A key is returned by the pattern lookup exactly when some entry holds it
and it matches the list pattern. -/
theorem mem_redisKeysListPattern (cache : Cache) (x : String) :
    x ∈ redisKeysListPattern cache ↔
      (∃ v, (x, v) ∈ cache) ∧ matchesListPattern x = true := by
  simp only [redisKeysListPattern, List.mem_filter, List.mem_map]
  constructor
  · rintro ⟨⟨e, he, rfl⟩, hm⟩
    exact ⟨⟨e.2, he⟩, hm⟩
  · rintro ⟨⟨v, hv⟩, hm⟩
    exact ⟨⟨(x, v), hv, rfl⟩, hm⟩

/-- The guarded create-invalidation block equals the unguarded DEL. -/
theorem createCacheClear_eq (cache : Cache) :
    createCacheClear cache = redisDel cache (redisKeysListPattern cache) := by
  unfold createCacheClear
  by_cases h : (redisKeysListPattern cache).length > 0
  · rw [if_pos h]
  · rw [if_neg h]
    have hnil : redisKeysListPattern cache = [] := by
      cases he : redisKeysListPattern cache with
      | nil => rfl
      | cons a t => rw [he] at h; simp at h
    rw [hnil]
    simp [redisDel]

/-- The guarded mutate-invalidation block equals the unguarded DEL (the
pushed detail key makes the key list non-empty). -/
theorem mutateCacheClear_eq (cache : Cache) (id : String) :
    mutateCacheClear cache id =
      redisDel cache (redisKeysListPattern cache ++ ["post:" ++ id]) := by
  unfold mutateCacheClear
  rw [if_pos]
  simp

/-- A detail key post:id never matches the list pattern posts:* — the sixth
character differs. -/
theorem detail_key_not_list_pattern (id : String) :
    matchesListPattern ("post:" ++ id) = false := by
  unfold matchesListPattern
  rw [String.data_append]
  have h1 : "posts:".data = ['p', 'o', 's', 't', 's', ':'] := by decide
  have h2 : "post:".data = ['p', 'o', 's', 't', ':'] := by decide
  rw [h1, h2]
  simp [List.isPrefixOf]

/-- C7: a successful create deletes from the cache exactly the entries whose
keys match the list pattern posts:* — a detail key post:id never matches the
pattern, so detail entries survive — while a successful update or delete
removes exactly the list-pattern entries together with the detail entry of
the affected post. -/
theorem c7_cache_invalidation (cache : Cache) (id : String) (e : String × String) :
    (e ∈ cache → (e ∉ createCacheClear cache ↔ matchesListPattern e.1 = true)) ∧
    matchesListPattern ("post:" ++ id) = false ∧
    (e ∈ cache →
      (e ∉ mutateCacheClear cache id ↔
        (matchesListPattern e.1 = true ∨ e.1 = "post:" ++ id))) := by
  refine ⟨?_, detail_key_not_list_pattern id, ?_⟩
  · intro he
    rw [createCacheClear_eq]
    constructor
    · intro hnm
      by_contra hf
      exact hnm ((mem_redisDel cache _ e).mpr
        ⟨he, fun hk => hf ((mem_redisKeysListPattern cache e.1).mp hk).2⟩)
    · intro hm hmem
      exact ((mem_redisDel cache _ e).mp hmem).2
        ((mem_redisKeysListPattern cache e.1).mpr ⟨⟨e.2, he⟩, hm⟩)
  · intro he
    rw [mutateCacheClear_eq]
    constructor
    · intro hnm
      by_cases hm : matchesListPattern e.1 = true
      · exact Or.inl hm
      · right
        by_contra hd
        refine hnm ((mem_redisDel cache _ e).mpr ⟨he, ?_⟩)
        intro hk
        rcases List.mem_append.mp hk with hk1 | hk2
        · exact hm ((mem_redisKeysListPattern cache e.1).mp hk1).2
        · exact hd (by simpa using hk2)
    · intro hm hmem
      have hnk := ((mem_redisDel cache _ e).mp hmem).2
      rcases hm with hm | hm
      · exact hnk (List.mem_append.mpr (Or.inl
          ((mem_redisKeysListPattern cache e.1).mpr ⟨⟨e.2, he⟩, hm⟩)))
      · exact hnk (List.mem_append.mpr (Or.inr (by simp [hm])))

/-- C7 witness: on a concrete cache holding one list entry and one detail
entry, a create removes the list entry while keeping the detail entry, and
an update of post p1 removes the detail entry too. -/
theorem c7_witness :
    (("posts:1:10:createdAt:all:none", "L") ∉
      createCacheClear [("posts:1:10:createdAt:all:none", "L"), ("post:p1", "D")]) ∧
    (("post:p1", "D") ∈
      createCacheClear [("posts:1:10:createdAt:all:none", "L"), ("post:p1", "D")]) ∧
    (("post:p1", "D") ∉
      mutateCacheClear [("posts:1:10:createdAt:all:none", "L"), ("post:p1", "D")] "p1") := by
  refine ⟨?_, by decide, ?_⟩
  · exact ((c7_cache_invalidation
      [("posts:1:10:createdAt:all:none", "L"), ("post:p1", "D")] "p1"
      ("posts:1:10:createdAt:all:none", "L")).1 (by decide)).mpr (by decide)
  · exact ((c7_cache_invalidation
      [("posts:1:10:createdAt:all:none", "L"), ("post:p1", "D")] "p1"
      ("post:p1", "D")).2.2 (by decide)).mpr (Or.inr (by decide))

/-- C8: the list cache key does not depend on the requested sort direction —
two request tuples agreeing on page, limit, sortBy, category and search get
the same key — so a cache hit returns the stored payload verbatim under
either direction. -/
theorem c8_cache_key_ignores_order (cache : Cache) (db : List Post) (udb : List User)
    (page limit sortBy o1 o2 : String) (category search : Option String) (payload : String)
    (hhit : cacheGet cache (getCacheKey page limit sortBy category search) = some payload) :
    requestCacheKey page limit sortBy o1 category search =
      requestCacheKey page limit sortBy o2 category search ∧
    getAllPostsCached cache db udb page limit sortBy o1 category search = .cached payload ∧
    getAllPostsCached cache db udb page limit sortBy o2 category search = .cached payload := by
  refine ⟨rfl, ?_, ?_⟩ <;> simp [getAllPostsCached, hhit]

/-- C8 witness: a payload cached under the ascending request is served
verbatim to the descending request for the same page, limit, sortBy,
category and search. -/
theorem c8_witness :
    getAllPostsCached [("posts:1:10:createdAt:all:none", "PAYLOAD")] [] []
      "1" "10" "createdAt" "asc" none none = .cached "PAYLOAD" ∧
    getAllPostsCached [("posts:1:10:createdAt:all:none", "PAYLOAD")] [] []
      "1" "10" "createdAt" "desc" none none = .cached "PAYLOAD" :=
  let h := c8_cache_key_ignores_order [("posts:1:10:createdAt:all:none", "PAYLOAD")] [] []
    "1" "10" "createdAt" "asc" "desc" none none "PAYLOAD" (by decide)
  ⟨h.2.1, h.2.2⟩

/-- Concatenating the batches gives back the recipient list. -/
theorem chunkList_flatten (l : List String) : (chunkList l).flatten = l := by
  induction l using chunkList.induct with
  | case1 => simp [chunkList]
  | case2 a rest ih =>
    rw [chunkList]
    simp only [List.flatten_cons]
    rw [ih]
    exact List.take_append_drop 5 (a :: rest)

/-- Batch i is the slice of the recipient list from 5i of length at most 5,
and there is no batch past the end of the list. -/
theorem chunkList_get? (l : List String) : ∀ i, (chunkList l).get? i =
    if (l.drop (5 * i)).isEmpty then none else some ((l.drop (5 * i)).take 5) := by
  induction l using chunkList.induct with
  | case1 => intro i; simp [chunkList]
  | case2 a rest ih =>
    intro i
    cases i with
    | zero => simp [chunkList]
    | succ n =>
      rw [chunkList]
      simp only [List.get?_cons_succ]
      rw [ih n, List.drop_drop]
      have h5 : 5 * (n + 1) = 5 + 5 * n := by ring
      rw [h5]

/-- Flatten commutes with a per-batch map. -/
theorem flatten_map_map (f : String → Bool) (L : List (List String)) :
    (L.map (fun b => b.map f)).flatten = L.flatten.map f := by
  induction L with
  | nil => rfl
  | cons b t ih => simp only [List.map_cons, List.flatten_cons, List.map_append, ih]

/-- The two filters of the tally partition the result list. -/
theorem filter_length_add (l : List Bool) :
    (l.filter (fun r => r)).length + (l.filter (fun r => !r)).length = l.length := by
  induction l with
  | nil => rfl
  | cons a t ih => cases a <;> simp [List.filter, ih] <;> omega

/-- The email-presence test of the recipient query holds exactly for a
present, non-empty address. -/
theorem email_match_iff (u : User) :
    ((match u.email with | some e => decide (e ≠ "") | none => false) = true) ↔
      (∃ e, u.email = some e ∧ e ≠ "") := by
  cases he : u.email <;> simp

/-- C9: the post:created recipients are exactly the stored users that are
active, hold a non-empty email and are not the author; the dispatch slices
the recipient list into consecutive batches of five in list order, every
recipient gets exactly one send attempt, and successCount plus failCount
equals the number of recipients. -/
theorem c9_notifications (udb : List User) (authorId : String) (outcome : String → Bool)
    (emails : List String) (u : User) (i : Nat) :
    (u ∈ notifRecipients udb authorId ↔
      u ∈ udb ∧ u.isActive = true ∧ (∃ e, u.email = some e ∧ e ≠ "") ∧ u._id ≠ authorId) ∧
    (chunkList emails).flatten = emails ∧
    ((chunkList emails).get? i =
      if (emails.drop (5 * i)).isEmpty then none else some ((emails.drop (5 * i)).take 5)) ∧
    (sendBulkEmail outcome emails).results = emails.map outcome ∧
    (sendBulkEmail outcome emails).successCount + (sendBulkEmail outcome emails).failCount =
      emails.length := by
  refine ⟨?_, chunkList_flatten emails, chunkList_get? emails i, ?_, ?_⟩
  · simp only [notifRecipients, List.mem_filter, Bool.and_eq_true, decide_eq_true_eq,
      email_match_iff]
    tauto
  · show ((chunkList emails).map (fun batch => batch.map outcome)).flatten = emails.map outcome
    rw [flatten_map_map, chunkList_flatten]
  · show (((chunkList emails).map (fun batch => batch.map outcome)).flatten.filter
        (fun r => r)).length +
      (((chunkList emails).map (fun batch => batch.map outcome)).flatten.filter
        (fun r => !r)).length = emails.length
    rw [flatten_map_map, chunkList_flatten, filter_length_add, List.length_map]

/-- C10: on an authorized post update, a patch the update validators reject
is answered 500 with the store untouched; an accepted patch applies only the
truthy patch fields (through the trim setters) and every other stored field
keeps its prior value, the thumbnail when no file is uploaded included; on a
profile update, only truthy fullName and email values are applied and the
remaining user fields are untouched. -/
theorem c10_partial_updates (db : List Post) (udb : List User) (id userId callerId : String)
    (patch : PostPatch) (file : Option String) (fullName email : Option String) :
    (∀ p, findPostById db id = some p → p.author = userId →
      (postUpdateValid patch = false →
        updatePost db id userId patch file = (.serverError, db)) ∧
      (postUpdateValid patch = true →
        (updatePost db id userId patch file).1 = .ok (applyPostPatch p patch file)) ∧
      (patch.title = none → (applyPostPatch p patch file).title = p.title) ∧
      (patch.content = none → (applyPostPatch p patch file).content = p.content) ∧
      (patch.category = none → (applyPostPatch p patch file).category = p.category) ∧
      (∀ t, patch.title = some t →
        (applyPostPatch p patch file).title = jsTrim t ∨
        (applyPostPatch p patch file).title = p.title) ∧
      (∀ c, patch.content = some c →
        (applyPostPatch p patch file).content = jsTrim c ∨
        (applyPostPatch p patch file).content = p.content) ∧
      (∀ c, patch.category = some c →
        (applyPostPatch p patch file).category = jsTrim c ∨
        (applyPostPatch p patch file).category = p.category) ∧
      (applyPostPatch p patch file)._id = p._id ∧
      (applyPostPatch p patch file).author = p.author ∧
      (applyPostPatch p patch file).createdAt = p.createdAt ∧
      (file = none → (applyPostPatch p patch file).thumbnail = p.thumbnail)) ∧
    (∀ u, findUserById udb callerId = some u →
      (updateProfile udb callerId fullName email).1 =
        .ok (userWithoutPassword (applyProfilePatch u fullName email)) ∧
      (fullName = none → (applyProfilePatch u fullName email).fullName = u.fullName) ∧
      (email = none → (applyProfilePatch u fullName email).email = u.email) ∧
      (∀ f, fullName = some f →
        (applyProfilePatch u fullName email).fullName = some f ∨
        (applyProfilePatch u fullName email).fullName = u.fullName) ∧
      (∀ e, email = some e →
        (applyProfilePatch u fullName email).email = some e ∨
        (applyProfilePatch u fullName email).email = u.email) ∧
      (applyProfilePatch u fullName email)._id = u._id ∧
      (applyProfilePatch u fullName email).username = u.username ∧
      (applyProfilePatch u fullName email).password = u.password ∧
      (applyProfilePatch u fullName email).role = u.role ∧
      (applyProfilePatch u fullName email).isActive = u.isActive) := by
  constructor
  · intro p hfind hown
    refine ⟨?_, ?_, ?_, ?_, ?_, ?_, ?_, ?_, rfl, rfl, rfl, ?_⟩
    · intro hbad
      rw [updatePost.eq_def, hfind]
      simp [hown, hbad]
    · intro hok
      rw [updatePost.eq_def, hfind]
      simp [hown, hok]
    · intro h; simp [applyPostPatch, h]
    · intro h; simp [applyPostPatch, h]
    · intro h; simp [applyPostPatch, h]
    · intro t h
      by_cases ht : t = "" <;> simp [applyPostPatch, h, ht]
    · intro c h
      by_cases hc : c = "" <;> simp [applyPostPatch, h, hc]
    · intro c h
      by_cases hc : c = "" <;> simp [applyPostPatch, h, hc]
    · intro h; simp [applyPostPatch, h]
  · intro u hfind
    have hres : (updateProfile udb callerId fullName email).1 =
        .ok (userWithoutPassword (applyProfilePatch u fullName email)) := by
      rw [updateProfile.eq_def, hfind]
    refine ⟨hres, ?_, ?_, ?_, ?_, rfl, rfl, rfl, rfl, rfl⟩
    · intro h; simp [applyProfilePatch, h, truthy]
    · intro h; simp [applyProfilePatch, h, truthy]
    · intro f h
      by_cases hf : f = "" <;> simp [applyProfilePatch, h, hf, truthy]
    · intro e h
      by_cases he : e = "" <;> simp [applyProfilePatch, h, he, truthy]

/-- C10 witness: an authorized update with an out-of-enumeration category is
answered 500 with the store untouched, while updating the sample post with
only a new title succeeds and keeps content and thumbnail. -/
theorem c10_witness :
    updatePost [samplePost] "p1" "u1" ⟨none, none, some "sports"⟩ none =
      (.serverError, [samplePost]) ∧
    (updatePost [samplePost] "p1" "u1" ⟨some "New", none, none⟩ none).1 =
      .ok (applyPostPatch samplePost ⟨some "New", none, none⟩ none) ∧
    (applyPostPatch samplePost ⟨some "New", none, none⟩ none).content = samplePost.content ∧
    (applyPostPatch samplePost ⟨some "New", none, none⟩ none).thumbnail = samplePost.thumbnail :=
  let hbad := (c10_partial_updates [samplePost] [sampleUser] "p1" "u1" "u1"
    ⟨none, none, some "sports"⟩ none none none).1 samplePost (by decide) (by decide)
  let h := (c10_partial_updates [samplePost] [sampleUser] "p1" "u1" "u1"
    ⟨some "New", none, none⟩ none none none).1 samplePost (by decide) (by decide)
  ⟨hbad.1 (by decide), h.2.1 (by decide), h.2.2.2.1 rfl,
   h.2.2.2.2.2.2.2.2.2.2.2 rfl⟩

end NodeASM
